import Mathlib

set_option autoImplicit false

/-!
Shallow embedding of the `dbus_objects` interface-description engine
(`dbus_objects/__init__.py`): member descriptors (method, property, signal),
lazy interface resolution, introspection XML fragments, signal emission and
server registration.  Python exceptions are modelled with `Except`; Python
string truthiness (`None` and `""` are falsy) is modelled explicitly.

The repository's `dbus_objects.signature` module (providing `dbus_case`,
`DBusSignature`, `DBusSignature.from_parameters` and
`DBusSignature.from_return`) is not part of the sources; those definitions
are modelled from the specification and marked as such in their doc
comments.
-/

namespace DBusObjects

/-- Python exceptions raised by the library, by kind, with their message. -/
inductive PyErr where
  | valueError (msg : String)
  | dbusObjectException (msg : String)
  | attributeError (msg : String)
  | missingTypeError (msg : String)
  deriving Repr, DecidableEq

/-- Python truthiness of an optional string: `None` and `""` are falsy. -/
def strTruthy : Option String → Bool
  | none => false
  | some s => decide (s ≠ "")

/-- Split a character list on underscores (empty words included). -/
def splitUnderscore : List Char → List (List Char)
  | [] => [[]]
  | c :: cs =>
    if c = '_' then [] :: splitUnderscore cs
    else
      match splitUnderscore cs with
      | [] => [[c]]
      | w :: ws => (c :: w) :: ws

/-- Capitalize the first character of a word, keeping the rest unchanged. -/
def capitalizeWord : List Char → List Char
  | [] => []
  | c :: cs => c.toUpper :: cs

/-- Modelled from the spec: the naming-convention conversion (`dbus_case`
from the missing `dbus_objects.signature` module).  Identifier-style names
are converted to DBus-style PascalCase segments: each underscore-separated
word is capitalized and the words are concatenated. -/
def dbus_case (s : String) : String :=
  String.mk (((splitUnderscore s.toList).map capitalizeWord).flatten)

/-- State of `_DBusDescriptorBase`: the declared interface (`_interface_orig`),
the cached resolved interface (`_interface`), and the stored member name
(`_name`, already converted by `dbus_case`, or `None`). -/
structure _DBusDescriptorBase where
  _interface_orig : Option String
  _interface : Option String
  _name : Option String
  deriving Repr, DecidableEq

/-- Constructor `_DBusDescriptorBase.__init__`: stores the declared interface in both
`_interface_orig` and `_interface`, and stores
`dbus_case(name) if name else None`. -/
def mkDescriptorBase (interface name : Option String) : _DBusDescriptorBase :=
  { _interface_orig := interface
    _interface := interface
    _name := if strTruthy name then some (dbus_case (name.getD "")) else none }

/-- The `interface` property getter: raises `ValueError` while `_interface`
is falsy. -/
def _DBusDescriptorBase.interface (d : _DBusDescriptorBase) : Except PyErr String :=
  if strTruthy d._interface then .ok (d._interface.getD "")
  else .error (.valueError "Interface has not been set yet")

/-- The `name` property getter: raises `ValueError` while `_name` is falsy. -/
def _DBusDescriptorBase.name (d : _DBusDescriptorBase) : Except PyErr String :=
  if strTruthy d._name then .ok (d._name.getD "")
  else .error (.valueError "Name has not been set yet")

/-- The attributes of the owner instance that `register_interface` reads:
`default_interface_root` and `_dbus_name`. -/
structure OwnerRef where
  default_interface_root : Option String
  _dbus_name : String
  deriving Repr, DecidableEq

/-- Method `_DBusDescriptorBase.register_interface`: when no interface was declared,
synthesizes `'.'.join([obj.default_interface_root, obj._dbus_name])` into
`_interface`, or raises `DBusObjectException` when the owner has no default
interface root (evaluating `self.name` for the message first). -/
def _DBusDescriptorBase.register_interface (d : _DBusDescriptorBase) (obj : OwnerRef) :
    Except PyErr _DBusDescriptorBase :=
  if strTruthy d._interface_orig then .ok d
  else if strTruthy obj.default_interface_root then
    .ok { d with _interface := some (obj.default_interface_root.getD "" ++ "." ++ obj._dbus_name) }
  else
    match d.name with
    | .ok n => .error (.dbusObjectException ("Missing interface in DBus method: " ++ n))
    | .error e => .error e

/-- A string starting with a non-empty string is non-empty. -/
theorem append_ne_empty_left (a b : String) (ha : a ≠ "") : a ++ b ≠ "" := by
  intro hab
  apply ha
  have hlen : (a ++ b).length = 0 := by rw [hab]; rfl
  rw [String.length_append] at hlen
  have ha0 : a.length = 0 := Nat.eq_zero_of_add_eq_zero_right hlen
  cases a with
  | mk data =>
    cases data with
    | nil => rfl
    | cons c cs => simp [String.length] at ha0

/-- C1: a descriptor declared without an explicit interface, registered on an
owner whose `default_interface_root` is set, resolves its interface to
`"{default_interface_root}.{owner_dbus_name}"`; on an owner without a default
interface root, `register_interface` raises `DBusObjectException`. -/
theorem register_interface_spec
    (d : _DBusDescriptorBase) (obj : OwnerRef) (n : String)
    (hiface : d._interface_orig = none)
    (hname : d._name = some n) (hn : n ≠ "") :
    (∀ root, obj.default_interface_root = some root → root ≠ "" →
      ∃ d', d.register_interface obj = .ok d' ∧
        d'.interface = .ok (root ++ "." ++ obj._dbus_name)) ∧
    (obj.default_interface_root = none →
      d.register_interface obj =
        .error (.dbusObjectException ("Missing interface in DBus method: " ++ n))) := by
  constructor
  · intro root hroot hroot0
    refine ⟨{ d with _interface := some (root ++ "." ++ obj._dbus_name) }, ?_, ?_⟩
    · simp [_DBusDescriptorBase.register_interface, hiface, hroot, strTruthy, hroot0]
    · have hne : root ++ "." ++ obj._dbus_name ≠ "" :=
        append_ne_empty_left (root ++ ".") obj._dbus_name
          (append_ne_empty_left root "." hroot0)
      simp [_DBusDescriptorBase.interface, strTruthy, hne]
  · intro hnone
    simp [_DBusDescriptorBase.register_interface, hiface, hnone, strTruthy,
      _DBusDescriptorBase.name, hname, hn]

/-- Two members declared with no explicit interface, on an owner with default
interface root `"com.example"` and DBus object name `"Thing"`, both resolve
interface `"com.example.Thing"`; without a default root the registration
fails with `DBusObjectException`. -/
theorem register_interface_spec_witness :
    (∃ d', (mkDescriptorBase none (some "version")).register_interface
        ⟨some "com.example", "Thing"⟩ = .ok d' ∧
        d'.interface = .ok "com.example.Thing") ∧
    (∃ d', (mkDescriptorBase none (some "ping")).register_interface
        ⟨some "com.example", "Thing"⟩ = .ok d' ∧
        d'.interface = .ok "com.example.Thing") ∧
    (mkDescriptorBase none (some "version")).register_interface ⟨none, "Thing"⟩ =
      .error (.dbusObjectException "Missing interface in DBus method: Version") := by
  refine ⟨?_, ?_, ?_⟩
  · exact (register_interface_spec (mkDescriptorBase none (some "version"))
      ⟨some "com.example", "Thing"⟩ "Version" (by decide) (by decide) (by decide)).1
      "com.example" rfl (by decide)
  · exact (register_interface_spec (mkDescriptorBase none (some "ping"))
      ⟨some "com.example", "Thing"⟩ "Ping" (by decide) (by decide) (by decide)).1
      "com.example" rfl (by decide)
  · exact (register_interface_spec (mkDescriptorBase none (some "version"))
      ⟨none, "Thing"⟩ "Version" (by decide) (by decide) (by decide)).2 rfl

/-- Native (Python) types supported by the type-signature resolver, as
described in the spec: booleans, integers, doubles, strings, object paths,
byte arrays, and nested sequences, dicts and tuples. -/
inductive PyType where
  | bool
  | int
  | str
  | float
  | objectPath
  | byteArray
  | list (elem : PyType)
  | dict (key value : PyType)
  | tuple (elems : List PyType)
  deriving Repr

mutual

/-- Modelled from the spec: the DBus type code of a supported native type
(single-character codes, `a`-prefixed arrays, brace-wrapped dict entries and
parenthesised structs, nested recursively). -/
def typeCode : PyType → String
  | .bool => "b"
  | .int => "i"
  | .str => "s"
  | .float => "d"
  | .objectPath => "o"
  | .byteArray => "ay"
  | .list t => "a" ++ typeCode t
  | .dict k v => "a\x7b" ++ typeCode k ++ typeCode v ++ "\x7d"
  | .tuple ts => "(" ++ typeCodeList ts ++ ")"

/-- Concatenated type codes of a list of native types. -/
def typeCodeList : List PyType → String
  | [] => ""
  | t :: ts => typeCode t ++ typeCodeList ts

end

/-- A DBus signature: an ordered sequence of DBus type codes with a parallel
(possibly empty) sequence of argument names. -/
structure DBusSignature where
  codes : List String
  names : List String
  deriving Repr, DecidableEq

/-- Modelled from the spec: `DBusSignature.from_parameters` of the missing
`dbus_objects.signature` module.  Every parameter must carry an explicit
type annotation (a missing one is a `MissingTypeError`, never a silent
fallback); each annotated type maps to its DBus type code, and parameter
names are kept alongside. -/
def DBusSignature.from_parameters (params : List (String × Option PyType)) :
    Except PyErr DBusSignature := do
  let codes ← params.mapM (fun p =>
    match p.2 with
    | some t => Except.ok (typeCode t)
    | none => Except.error (PyErr.missingTypeError p.1))
  .ok ⟨codes, params.map Prod.fst⟩

/-- Modelled from the spec: `DBusSignature.from_return` of the missing
`dbus_objects.signature` module.  `None` return yields an empty output
signature; with `multiple_returns` a tuple-shaped return yields one element
per slot, named pairwise when a names list is given (whose length must then
equal the tuple arity); otherwise a single element, optionally named by a
names list of length one. -/
def DBusSignature.from_return (ret : Option PyType) (return_names : List String)
    (multiple_returns : Bool) : Except PyErr DBusSignature :=
  match ret with
  | none => .ok ⟨[], []⟩
  | some t =>
    if multiple_returns then
      match t with
      | .tuple ts =>
        if return_names = [] then .ok ⟨ts.map typeCode, []⟩
        else if return_names.length = ts.length then .ok ⟨ts.map typeCode, return_names⟩
        else .error (.valueError "mismatched return names arity")
      | _ => .error (.valueError "multiple returns requires a tuple return type")
    else
      if return_names.length ≤ 1 then .ok ⟨[typeCode t], return_names⟩
      else .error (.valueError "mismatched return names arity")

/-- State of `_DBusMethodBase`: the underlying function (abstract, of type
`F`), the return-name/multiplicity flags, and the resolved input and output
signatures.  In the source the function carries its own name and annotations
(`func.__name__`, parameter and return annotations); here they are passed to
the constructor explicitly. -/
structure _DBusMethodBase (F : Type) extends _DBusDescriptorBase where
  _func : F
  _return_names : List String
  _multiple_returns : Bool
  _input_signature : DBusSignature
  _output_signature : DBusSignature

/-- Constructor `_DBusMethodBase.__init__`: the member name defaults to `func.__name__`
when no explicit name is given (both go through `dbus_case` in the base
constructor), and the input/output signatures are resolved once from the
function annotations. -/
def mkMethodBase {F : Type} (func : F) (funcName : String)
    (params : List (String × Option PyType)) (ret : Option PyType)
    (interface name : Option String) (return_names : List String)
    (multiple_returns : Bool) : Except PyErr (_DBusMethodBase F) := do
  let base := mkDescriptorBase interface
    (some (if strTruthy name then name.getD "" else funcName))
  let insig ← DBusSignature.from_parameters params
  let outsig ← DBusSignature.from_return ret return_names multiple_returns
  .ok { base with
    _func := func
    _return_names := return_names
    _multiple_returns := multiple_returns
    _input_signature := insig
    _output_signature := outsig }

/-- `_DBusMethod` adds nothing to the method-base state (its `_list_name`
only routes registration). -/
structure _DBusMethod (F : Type) extends _DBusMethodBase F

/-- Constructor `_DBusMethod.__init__`. -/
def mkDBusMethod {F : Type} (func : F) (funcName : String)
    (params : List (String × Option PyType)) (ret : Option PyType)
    (interface name : Option String) (return_names : List String)
    (multiple_returns : Bool) : Except PyErr (_DBusMethod F) := do
  let base ← mkMethodBase func funcName params ret interface name return_names multiple_returns
  .ok { base with }

/-- An `<arg>` child of an introspection element: optional `direction`,
`type` and `name` attributes (an attribute absent from the dict is `none`). -/
structure XmlArg where
  direction : Option String
  typeAttr : Option String
  nameAttr : Option String
  deriving Repr, DecidableEq

/-- An introspection XML element: tag, attributes, and `<arg>` children. -/
structure XmlElem where
  tag : String
  attrs : List (String × String)
  args : List XmlArg
  deriving Repr, DecidableEq

/-- Python `itertools.zip_longest` on two lists, padding the shorter with `none`. -/
def zipLongest {α β : Type} : List α → List β → List (Option α × Option β)
  | [], [] => []
  | a :: as, [] => (some a, none) :: zipLongest as []
  | [], b :: bs => (none, some b) :: zipLongest [] bs
  | a :: as, b :: bs => (some a, some b) :: zipLongest as bs

/-- The `<arg>` children generated for one direction of a method signature:
`zip_longest` over names and type codes, the `name` attribute added only
when the name is truthy. -/
def xmlArgsFor (direction : String) (sig : DBusSignature) : List XmlArg :=
  (zipLongest sig.names sig.codes).map fun p =>
    { direction := some direction
      typeAttr := p.2
      nameAttr :=
        match p.1 with
        | some s => if s = "" then none else some s
        | none => none }

/-- Introspection `_DBusMethod.xml`: a `<method>` element named after the member, with
`in` args from the input signature followed by `out` args from the output
signature.  The source's set-check on the signatures never fires here:
modelled from the spec, `DBusSignature` is a plain container (always truthy
as a Python object) and both signatures are assigned during construction. -/
def _DBusMethod.xml {F : Type} (d : _DBusMethod F) : Except PyErr XmlElem := do
  let n ← d.to_DBusDescriptorBase.name
  .ok { tag := "method"
        attrs := [("name", n)]
        args := xmlArgsFor "in" d._input_signature ++ xmlArgsFor "out" d._output_signature }

/-- C10: a member descriptor constructed with an explicitly supplied name
stores `dbus_case` of it rather than the verbatim string — the same
conversion a name defaulted from the function name goes through — and the
name getter returns the converted form. -/
theorem explicit_name_dbus_cased {F : Type} (func : F) (iface : Option String)
    (s fname : String) (params : List (String × Option PyType))
    (ret : Option PyType) (rnames : List String) (mret : Bool)
    (hs : s ≠ "") (hcase : dbus_case s ≠ "") :
    ((mkDescriptorBase iface (some s))._name = some (dbus_case s) ∧
      (mkDescriptorBase iface (some s)).name = .ok (dbus_case s)) ∧
    (∀ d, mkMethodBase func fname params ret iface (some s) rnames mret = .ok d →
      d._name = some (dbus_case s)) ∧
    (∀ d, mkMethodBase func fname params ret iface none rnames mret = .ok d →
      d._name = (mkDescriptorBase iface (some fname))._name) := by
  have hbase : (mkDescriptorBase iface (some s))._name = some (dbus_case s) := by
    simp [mkDescriptorBase, strTruthy, hs]
  refine ⟨⟨hbase, ?_⟩, ?_, ?_⟩
  · simp [_DBusDescriptorBase.name, hbase, strTruthy, hcase]
  · intro d hd
    cases hp : DBusSignature.from_parameters params with
    | error e => simp [mkMethodBase, hp, Bind.bind, Except.bind] at hd
    | ok insig =>
      cases hr : DBusSignature.from_return ret rnames mret with
      | error e => simp [mkMethodBase, hp, hr, Bind.bind, Except.bind] at hd
      | ok outsig =>
        simp [mkMethodBase, hp, hr, Bind.bind, Except.bind] at hd
        subst hd
        simp [mkDescriptorBase, strTruthy, hs]
  · intro d hd
    cases hp : DBusSignature.from_parameters params with
    | error e => simp [mkMethodBase, hp, Bind.bind, Except.bind] at hd
    | ok insig =>
      cases hr : DBusSignature.from_return ret rnames mret with
      | error e => simp [mkMethodBase, hp, hr, Bind.bind, Except.bind] at hd
      | ok outsig =>
        simp [mkMethodBase, hp, hr, Bind.bind, Except.bind] at hd
        subst hd
        rfl

/-- A descriptor given the explicit name `"my_name"` stores and returns
`"MyName"`, the `dbus_case` conversion of it, not the verbatim string. -/
theorem explicit_name_dbus_cased_witness :
    (mkDescriptorBase none (some "my_name"))._name = some "MyName" ∧
    (mkDescriptorBase none (some "my_name")).name = .ok "MyName" ∧
    dbus_case "my_name" ≠ "my_name" := by
  have h := @explicit_name_dbus_cased Unit () none "my_name" "f" [] none [] false
    (by decide) (by decide)
  refine ⟨?_, ?_, by decide⟩
  · have := h.1.1
    simpa using this
  · have := h.1.2
    simpa using this

/-- C4: a method descriptor whose function has input parameter types
`(int, str)` and return type `None` produces a `<method>` element with
exactly two `<arg>` children of direction `in` — one per input signature
slot, carrying type codes `i` and `s` — and zero `<arg>` children of
direction `out`. -/
theorem method_xml_in_out_args {F : Type} (func : F) (fname n1 n2 : String)
    (hfname : fname ≠ "") (hf : dbus_case fname ≠ "") :
    ∃ (d : _DBusMethod F) (e : XmlElem),
      mkDBusMethod func fname [(n1, some PyType.int), (n2, some PyType.str)]
        none none none [] false = .ok d ∧
      d.xml = .ok e ∧
      e.tag = "method" ∧
      e.args.filter (fun a => a.direction = some "in") =
        [⟨some "in", some "i", if n1 = "" then none else some n1⟩,
          ⟨some "in", some "s", if n2 = "" then none else some n2⟩] ∧
      e.args.filter (fun a => a.direction = some "out") = [] := by
  refine ⟨{ to_DBusDescriptorBase := mkDescriptorBase none (some fname)
            _func := func
            _return_names := []
            _multiple_returns := false
            _input_signature := ⟨["i", "s"], [n1, n2]⟩
            _output_signature := ⟨[], []⟩ },
    { tag := "method"
      attrs := [("name", dbus_case fname)]
      args := [⟨some "in", some "i", if n1 = "" then none else some n1⟩,
               ⟨some "in", some "s", if n2 = "" then none else some n2⟩] },
    ?_, ?_, rfl, ?_, ?_⟩
  · rfl
  · simp [_DBusMethod.xml, _DBusDescriptorBase.name, mkDescriptorBase, strTruthy,
      hfname, hf, xmlArgsFor, zipLongest, Bind.bind, Except.bind]
  · simp
  · simp

/-- A method with two typed inputs named `a` and `b` and a `None` return
yields exactly two `in` args, typed `i` and `s`, and no `out` args. -/
theorem method_xml_in_out_args_witness :
    ∃ (d : _DBusMethod Unit) (e : XmlElem),
      mkDBusMethod () "ping" [("a", some PyType.int), ("b", some PyType.str)]
        none none none [] false = .ok d ∧
      d.xml = .ok e ∧
      e.tag = "method" ∧
      e.args.filter (fun a => a.direction = some "in") =
        [⟨some "in", some "i", some "a"⟩, ⟨some "in", some "s", some "b"⟩] ∧
      e.args.filter (fun a => a.direction = some "out") = [] := by
  have h := @method_xml_in_out_args Unit () "ping" "a" "b"
    (by decide) (by decide)
  simpa using h

/-- The result of Python attribute access through the descriptor protocol:
the raw function object, a method bound to an instance, or (for properties)
the value computed by the underlying getter. -/
inductive AttrAccess (F Inst Val : Type) where
  | rawFunc (f : F)
  | boundMethod (f : F) (self : Inst)
  | value (v : Val)

/-- Descriptor access `_DBusMethodBase.__get__`: class access (`obj is None`) returns the raw
underlying function; instance access first resolves the interface from the
instance (which can raise) and returns the function bound to the instance
(`types.MethodType(self._func, obj)`). -/
def _DBusMethodBase.pyGet {F Inst Val : Type} (d : _DBusMethodBase F)
    (ownerOf : Inst → OwnerRef) (obj : Option Inst) :
    Except PyErr (_DBusMethodBase F × AttrAccess F Inst Val) :=
  match obj with
  | none => .ok (d, .rawFunc d._func)
  | some o =>
    match d.to_DBusDescriptorBase.register_interface (ownerOf o) with
    | .ok base' => .ok ({ d with to_DBusDescriptorBase := base' }, .boundMethod d._func o)
    | .error e => .error e

/-- Rendering a signature to its wire-format string: the concatenation of
its type codes, names ignored. -/
def DBusSignature.render (s : DBusSignature) : String :=
  String.join s.codes

/-- State of `_DBusProperty`: a method base whose function takes the
(possibly `None`) instance, plus the optional setter and the attribute name
assigned by `__set_name__` (`_descriptor_name`, used in the no-setter error
message). -/
structure _DBusProperty (Inst Val : Type) extends _DBusMethodBase (Option Inst → Val) where
  _setter : Option (Inst → Val → Inst)
  _descriptor_name : Option String

/-- Constructor `_DBusProperty.__init__`: a method-base construction with no setter
attached. -/
def mkDBusProperty {Inst Val : Type} (func : Option Inst → Val) (funcName : String)
    (params : List (String × Option PyType)) (ret : Option PyType)
    (interface name : Option String) (return_names : List String)
    (multiple_returns : Bool) : Except PyErr (_DBusProperty Inst Val) := do
  let base ← mkMethodBase func funcName params ret interface name return_names multiple_returns
  .ok { base with _setter := none, _descriptor_name := none }

/-- Introspection `_DBusProperty.xml`: a `<property>` element with the member name, the
rendered output signature as `type`, and `access` computed as `read` when no
setter is attached and `readwrite` otherwise. -/
def _DBusProperty.xml {Inst Val : Type} (d : _DBusProperty Inst Val) :
    Except PyErr XmlElem := do
  let n ← d.to_DBusDescriptorBase.name
  .ok { tag := "property"
        attrs := [("name", n), ("type", d._output_signature.render),
                  ("access", match d._setter with | none => "read" | some _ => "readwrite")]
        args := [] }

/-- Descriptor access `_DBusProperty.__get__`: both the class-access branch (`obj is None`)
and the instance branch call `self._func(obj)` and return its value. -/
def _DBusProperty.pyGet {Inst Val : Type} (d : _DBusProperty Inst Val)
    (obj : Option Inst) : AttrAccess (Option Inst → Val) Inst Val :=
  match obj with
  | none => .value (d._func none)
  | some o => .value (d._func (some o))

/-- Descriptor write `_DBusProperty.__set__`: raises `AttributeError` when no setter is
attached (leaving the instance as it was), otherwise runs the setter on the
instance and value. -/
def _DBusProperty.pySet {Inst Val : Type} (d : _DBusProperty Inst Val)
    (obj : Inst) (value : Val) : Inst × Option PyErr :=
  match d._setter with
  | none =>
    match d._descriptor_name with
    | some n => (obj, some (.attributeError (n ++ " has no setter")))
    | none => (obj, some (.attributeError "_descriptor_name"))
  | some f => (f obj value, none)

/-- Method `_DBusProperty.setter`: attaches the setter and returns the descriptor. -/
def _DBusProperty.setter {Inst Val : Type} (d : _DBusProperty Inst Val)
    (value : Inst → Val → Inst) : _DBusProperty Inst Val :=
  { d with _setter := some value }

/-- The operations available on a property descriptor after construction. -/
inductive PropOp (Inst Val : Type) where
  | attachSetter (f : Inst → Val → Inst)
  | write (obj : Inst) (v : Val)
  | read (obj : Option Inst)

/-- The descriptor state after one operation: only `setter` changes it
(`__get__` and `__set__` leave the descriptor untouched). -/
def applyPropOp {Inst Val : Type} (d : _DBusProperty Inst Val) :
    PropOp Inst Val → _DBusProperty Inst Val
  | .attachSetter f => d.setter f
  | .write _ _ => d
  | .read _ => d

/-- C5: the `xml` of a property descriptor carries `access="read"` when no
setter is attached and `access="readwrite"` when one is. -/
theorem property_xml_access_mode {Inst Val : Type} (d : _DBusProperty Inst Val)
    (n : String) (hname : d._name = some n) (hn : n ≠ "") :
    (d._setter = none →
      d.xml = .ok { tag := "property"
                    attrs := [("name", n), ("type", d._output_signature.render),
                              ("access", "read")]
                    args := [] }) ∧
    (∀ f, d._setter = some f →
      d.xml = .ok { tag := "property"
                    attrs := [("name", n), ("type", d._output_signature.render),
                              ("access", "readwrite")]
                    args := [] }) := by
  constructor
  · intro hset
    simp [_DBusProperty.xml, _DBusDescriptorBase.name, hname, strTruthy, hn, hset,
      Bind.bind, Except.bind]
  · intro f hset
    simp [_DBusProperty.xml, _DBusDescriptorBase.name, hname, strTruthy, hn, hset,
      Bind.bind, Except.bind]

/-- A concrete property descriptor (getter returning `42`, unsigned output
signature, no setter), used by the C5 witness. -/
def examplePropertyRead : _DBusProperty Unit Nat :=
  { to_DBusDescriptorBase := mkDescriptorBase none (some "version")
    _func := fun _ => 42
    _return_names := []
    _multiple_returns := false
    _input_signature := ⟨[], []⟩
    _output_signature := ⟨["u"], []⟩
    _setter := none
    _descriptor_name := some "version" }

/-- Without a setter the example property reports `access="read"`; with one
attached it reports `access="readwrite"`. -/
theorem property_xml_access_mode_witness :
    examplePropertyRead.xml =
      .ok { tag := "property", attrs := [("name", "Version"), ("type", "u"),
            ("access", "read")], args := [] } ∧
    (examplePropertyRead.setter fun u _ => u).xml =
      .ok { tag := "property", attrs := [("name", "Version"), ("type", "u"),
            ("access", "readwrite")], args := [] } := by
  constructor
  · have h := (property_xml_access_mode examplePropertyRead "Version"
      (by decide) (by decide)).1 rfl
    simpa [DBusSignature.render, examplePropertyRead] using h
  · have h := (property_xml_access_mode (examplePropertyRead.setter fun u _ => u)
      "Version" (by decide) (by decide)).2 _ rfl
    simpa [DBusSignature.render, examplePropertyRead] using h

/-- C7: writing through a property with no setter raises the no-setter
`AttributeError` and leaves the instance unchanged; `setter fn` attaches
`fn` and returns the descriptor; writing afterwards invokes `fn` on the
instance and value; and no descriptor operation ever detaches an attached
setter. -/
theorem property_setter_spec {Inst Val : Type} (d : _DBusProperty Inst Val)
    (obj : Inst) (v : Val) (f : Inst → Val → Inst) (dn : String)
    (hdn : d._descriptor_name = some dn) :
    (d._setter = none →
      d.pySet obj v = (obj, some (.attributeError (dn ++ " has no setter")))) ∧
    (d.setter f)._setter = some f ∧
    (d.setter f).pySet obj v = (f obj v, none) ∧
    (∀ op : PropOp Inst Val, d._setter.isSome → ((applyPropOp d op)._setter).isSome) := by
  refine ⟨?_, rfl, rfl, ?_⟩
  · intro hset
    simp [_DBusProperty.pySet, hset, hdn]
  · intro op hsome
    cases op with
    | attachSetter f => simp [applyPropOp, _DBusProperty.setter]
    | write o w => simpa [applyPropOp] using hsome
    | read o => simpa [applyPropOp] using hsome

/-- A concrete property descriptor over `Nat` instances (getter reads the
instance itself, attribute name `counter`, no setter), used by the C7
witness. -/
def examplePropertyNat : _DBusProperty Nat Nat :=
  { to_DBusDescriptorBase := mkDescriptorBase none (some "counter")
    _func := fun o => o.getD 0
    _return_names := []
    _multiple_returns := false
    _input_signature := ⟨[], []⟩
    _output_signature := ⟨["u"], []⟩
    _setter := none
    _descriptor_name := some "counter" }

/-- On a concrete property: writing with no setter raises the no-setter
error and leaves the instance at `5`; after attaching addition as the
setter, writing `7` to instance `5` yields `12`; the attached setter
survives every further operation. -/
theorem property_setter_spec_witness :
    (examplePropertyNat.pySet 5 7 =
      (5, some (.attributeError "counter has no setter"))) ∧
    (examplePropertyNat.setter (fun o w => o + w))._setter.isSome = true ∧
    (examplePropertyNat.setter (fun o w => o + w)).pySet 5 7 = (12, none) ∧
    ((applyPropOp (examplePropertyNat.setter fun o w => o + w)
      (.write 1 2))._setter).isSome = true := by
  have h := property_setter_spec examplePropertyNat 5 7 (fun o w => o + w)
    "counter" rfl
  have h2 := property_setter_spec (examplePropertyNat.setter fun o w => o + w)
    1 2 (fun o w => o + w) "counter" rfl
  refine ⟨h.1 rfl, ?_, h.2.2.1, ?_⟩
  · rw [h.2.1]
    rfl
  · exact h2.2.2.2 (.write 1 2) (by rw [h.2.1]; rfl)

/-- C3 (counterexample): class access on a property descriptor does not
return the raw underlying function — the `obj is None` branch of
`_DBusProperty.__get__` calls `self._func(obj)` and returns its value. -/
theorem property_class_access_invokes_getter :
    examplePropertyRead.pyGet none = .value 42 ∧
    examplePropertyRead.pyGet none ≠ .rawFunc examplePropertyRead._func := by
  refine ⟨rfl, fun h => ?_⟩
  exact AttrAccess.noConfusion h

/-- C3 (amended): for method descriptors, instance access yields the
function bound to that instance and class access returns the raw function
unchanged and uninvoked; for property descriptors, both instance and class
access invoke the underlying getter with the instance (`None` on class
access) and return its value. -/
theorem descriptor_get_binding {F Inst Val : Type} (m : _DBusMethodBase F)
    (p : _DBusProperty Inst Val) (ownerOf : Inst → OwnerRef) (o : Inst)
    (i : String) (hiface : m._interface_orig = some i) (hi : i ≠ "") :
    @_DBusMethodBase.pyGet F Inst Val m ownerOf none = .ok (m, .rawFunc m._func) ∧
    @_DBusMethodBase.pyGet F Inst Val m ownerOf (some o) = .ok (m, .boundMethod m._func o) ∧
    p.pyGet none = .value (p._func none) ∧
    p.pyGet (some o) = .value (p._func (some o)) := by
  refine ⟨rfl, ?_, rfl, rfl⟩
  have hreg : m.to_DBusDescriptorBase.register_interface (ownerOf o) =
      .ok m.to_DBusDescriptorBase := by
    simp [_DBusDescriptorBase.register_interface, hiface, strTruthy, hi]
  simp [_DBusMethodBase.pyGet, hreg]

/-- A concrete method descriptor with an explicitly declared interface,
whose underlying function is represented by the token `"ping_function"`. -/
def exampleMethodBase : _DBusMethodBase String :=
  { to_DBusDescriptorBase := mkDescriptorBase (some "com.example.Iface") (some "ping")
    _func := "ping_function"
    _return_names := []
    _multiple_returns := false
    _input_signature := ⟨[], []⟩
    _output_signature := ⟨[], []⟩ }

/-- On concrete descriptors: class access on a method returns the raw
function, instance access returns it bound to the instance, and instance
access on a property returns the getter value. -/
theorem descriptor_get_binding_witness :
    @_DBusMethodBase.pyGet String Unit Nat exampleMethodBase
      (fun _ => ⟨none, "Thing"⟩) none =
      .ok (exampleMethodBase, .rawFunc "ping_function") ∧
    @_DBusMethodBase.pyGet String Unit Nat exampleMethodBase
      (fun _ => ⟨none, "Thing"⟩) (some ()) =
      .ok (exampleMethodBase, .boundMethod "ping_function" ()) ∧
    examplePropertyRead.pyGet (some ()) = .value 42 := by
  have h := descriptor_get_binding exampleMethodBase examplePropertyRead
    (fun _ : Unit => ⟨(none : Option String), "Thing"⟩) () "com.example.Iface"
    rfl (by decide)
  exact ⟨h.1, h.2.1, h.2.2.2⟩

/-- State of `_DBusSignal`: the descriptor base plus the signal signature. -/
structure _DBusSignal extends _DBusDescriptorBase where
  _signature : DBusSignature
  deriving Repr, DecidableEq

/-- Constructor `_DBusSignal.__init__`: giving both positional types and named types is
a `ValueError`; with named types the signature is built from their values
and keys, otherwise from the positional types alone. -/
def mkDBusSignal (types : List PyType) (named_types : List (String × PyType))
    (interface name : Option String) : Except PyErr _DBusSignal :=
  let base := mkDescriptorBase interface name
  if !types.isEmpty && !named_types.isEmpty then
    .error (.valueError ("_DBusSignal receives either positional arguments "
      ++ "or keyword arguments as the signal types, but not both."))
  else if !named_types.isEmpty then
    .ok { base with
      _signature := ⟨named_types.map fun p => typeCode p.2, named_types.map Prod.fst⟩ }
  else
    .ok { base with _signature := ⟨types.map typeCode, []⟩ }

/-- C6: constructing a signal with both a non-empty positional type sequence
and a non-empty named type mapping raises `ValueError`; with only one of
the two (or neither) it succeeds, building the signature from whichever was
given. -/
theorem signal_init_positional_xor_named
    (types : List PyType) (named_types : List (String × PyType))
    (interface name : Option String) :
    (types ≠ [] → named_types ≠ [] →
      ∃ msg, mkDBusSignal types named_types interface name =
        .error (.valueError msg)) ∧
    (named_types ≠ [] → types = [] →
      mkDBusSignal types named_types interface name =
        .ok { mkDescriptorBase interface name with
          _signature := ⟨named_types.map fun p => typeCode p.2,
            named_types.map Prod.fst⟩ }) ∧
    (named_types = [] →
      mkDBusSignal types named_types interface name =
        .ok { mkDescriptorBase interface name with
          _signature := ⟨types.map typeCode, []⟩ }) := by
  refine ⟨?_, ?_, ?_⟩
  · intro ht hn
    cases types with
    | nil => exact absurd rfl ht
    | cons a as =>
      cases named_types with
      | nil => exact absurd rfl hn
      | cons b bs => exact ⟨_, rfl⟩
  · intro hn ht
    subst ht
    cases named_types with
    | nil => exact absurd rfl hn
    | cons b bs => rfl
  · intro hn
    subst hn
    cases types with
    | nil => rfl
    | cons a as => rfl

/-- Declaring a signal with both `(int)` positional and `{x: str}` named
types fails; each shape alone succeeds with the signature built from it. -/
theorem signal_init_positional_xor_named_witness :
    (∃ msg, mkDBusSignal [PyType.int] [("x", PyType.str)] none (some "changed") =
      .error (.valueError msg)) ∧
    mkDBusSignal [] [("x", PyType.str)] none (some "changed") =
      .ok { mkDescriptorBase none (some "changed") with _signature := ⟨["s"], ["x"]⟩ } ∧
    mkDBusSignal [PyType.int] [] none (some "changed") =
      .ok { mkDescriptorBase none (some "changed") with _signature := ⟨["i"], []⟩ } := by
  have h1 := (signal_init_positional_xor_named [PyType.int] [("x", PyType.str)]
    none (some "changed")).1 (by simp) (by simp)
  have h2 := (signal_init_positional_xor_named [] [("x", PyType.str)]
    none (some "changed")).2.1 (by simp) rfl
  have h3 := (signal_init_positional_xor_named [PyType.int] []
    none (some "changed")).2.2 rfl
  exact ⟨h1, by simpa [typeCode] using h2, by simpa [typeCode] using h3⟩

/-- Result of a Python call: a normal return or a raised exception. -/
inductive PyResult (α : Type) where
  | ok (a : α)
  | exc (msg : String)
  deriving Repr, DecidableEq

/-- Observable trace of one signal emission: the callback invocations in
order (callback id, the signal descriptor and the argument tuple each was
called with) and the messages logged for caught exceptions. -/
structure EmitTrace (Args : Type) where
  invoked : List (Nat × _DBusSignal × Args)
  logged : List String

/-- The loop body of `emit_signal` from `_DBusSignal.emit_signal_callback`:
each registered callback is called with the signal descriptor and the
argument tuple; an exception from a callback is caught and logged (the log
line reads `self.name`, whose own failure would propagate) and the loop
continues with the remaining callbacks. -/
def emitSignalAux {Args : Type} (sig : _DBusSignal)
    (beh : Nat → _DBusSignal → Args → PyResult Unit) (args : Args) :
    List Nat → EmitTrace Args → EmitTrace Args × PyResult Unit
  | [], tr => (tr, .ok ())
  | i :: rest, tr =>
    let tr1 : EmitTrace Args := { tr with invoked := tr.invoked ++ [(i, sig, args)] }
    match beh i sig args with
    | .ok _ => emitSignalAux sig beh args rest tr1
    | .exc e =>
      match sig.to_DBusDescriptorBase.name with
      | .ok n =>
        emitSignalAux sig beh args rest
          { tr1 with logged := tr1.logged ++
              ["An exception ocurred when try to emit signal " ++ n ++ ": " ++ e] }
      | .error _ => (tr1, .exc "ValueError")

/-- Closure `emit_signal(*args)`: loop over the owner's registered emission
callbacks, starting from an empty trace. -/
def emitSignal {Args : Type} (sig : _DBusSignal)
    (beh : Nat → _DBusSignal → Args → PyResult Unit)
    (callbacks : List Nat) (args : Args) : EmitTrace Args × PyResult Unit :=
  emitSignalAux sig beh args callbacks ⟨[], []⟩

/-- Accumulator-generalized characterization of the emission loop for a
signal whose name is set: every callback is invoked, exceptions are logged,
nothing propagates. -/
theorem emitSignalAux_spec {Args : Type} (sig : _DBusSignal)
    (beh : Nat → _DBusSignal → Args → PyResult Unit) (args : Args) (n : String)
    (hname : sig._name = some n) (hn : n ≠ "") :
    ∀ (callbacks : List Nat) (tr : EmitTrace Args),
    emitSignalAux sig beh args callbacks tr =
      ({ invoked := tr.invoked ++ callbacks.map fun i => (i, sig, args)
         logged := tr.logged ++ callbacks.filterMap fun i =>
           match beh i sig args with
           | .ok _ => none
           | .exc e => some ("An exception ocurred when try to emit signal "
               ++ n ++ ": " ++ e) },
       .ok ()) := by
  have hget : sig.to_DBusDescriptorBase.name = .ok n := by
    simp [_DBusDescriptorBase.name, hname, strTruthy, hn]
  intro callbacks
  induction callbacks with
  | nil => intro tr; simp [emitSignalAux]
  | cons i rest ih =>
    intro tr
    cases hb : beh i sig args with
    | ok u =>
      simp [emitSignalAux, hb, ih]
    | exc e =>
      simp [emitSignalAux, hb, hget, ih]

/-- C2: emitting a signal (with its name set) to a list of registered
callbacks invokes every callback with the signal descriptor and the
argument tuple, logs each callback exception, and never lets an exception
propagate to the emitter. -/
theorem emit_signal_isolates_failures {Args : Type} (sig : _DBusSignal)
    (beh : Nat → _DBusSignal → Args → PyResult Unit)
    (callbacks : List Nat) (args : Args) (n : String)
    (hname : sig._name = some n) (hn : n ≠ "") :
    emitSignal sig beh callbacks args =
      ({ invoked := callbacks.map fun i => (i, sig, args)
         logged := callbacks.filterMap fun i =>
           match beh i sig args with
           | .ok _ => none
           | .exc e => some ("An exception ocurred when try to emit signal "
               ++ n ++ ": " ++ e) },
       .ok ()) := by
  have h := emitSignalAux_spec sig beh args n hname hn callbacks ⟨[], []⟩
  simpa [emitSignal] using h

/-- A concrete signal used by the emission witness. -/
def exampleSignal : _DBusSignal :=
  { mkDescriptorBase (some "com.example.Iface") (some "changed") with
    _signature := ⟨["i"], []⟩ }

/-- Emitting with two callbacks where the first raises: both callbacks are
invoked with the descriptor and the arguments, the failure is logged, and
the emitter sees a normal return. -/
theorem emit_signal_isolates_failures_witness :
    emitSignal exampleSignal
      (fun i _ _ => if i = 0 then .exc "boom" else .ok ()) [0, 1] [3, 4] =
      ({ invoked := [(0, exampleSignal, [3, 4]), (1, exampleSignal, [3, 4])]
         logged := ["An exception ocurred when try to emit signal Changed: boom"] },
       .ok ()) := by
  have h := emit_signal_isolates_failures exampleSignal
    (fun i _ _ => if i = 0 then .exc "boom" else .ok ())
    [0, 1] ([3, 4] : List Nat) "Changed" (by decide) (by decide)
  simpa using h

/-- The transport-server collaborator as seen by `register_server`: an
optional emission capability (`server.emit_signal_callback`, falsy when
absent, here a token identifying the capability) and the server's class
name (used in the warning message). -/
structure ServerRef where
  emit_signal_callback : Option Nat
  className : String
  deriving Repr, DecidableEq

/-- Instance state of `DBusObject` relevant to server registration: the
per-type signal list (`None` until a first signal is declared), the
emission-callback list, the resolved DBus object name, and the default
interface root. -/
structure DBusObject where
  _dbus_signals : Option (List (String × _DBusSignal))
  _emit_signal_callbacks : List (Nat × String)
  _dbus_name : String
  default_interface_root : Option String

/-- Constructor `DBusObject.__init__`: the DBus object name defaults to the type name,
both going through `dbus_case`; the emission-callback list starts empty. -/
def mkDBusObject (typeName : String) (name : Option String)
    (default_interface_root : Option String)
    (signals : Option (List (String × _DBusSignal))) : DBusObject :=
  { _dbus_signals := signals
    _emit_signal_callbacks := []
    _dbus_name := dbus_case (if strTruthy name then name.getD "" else typeName)
    default_interface_root := default_interface_root }

/-- Method `DBusObject.register_server`: returns unchanged when the type declares
no signals (the signal list is `None` or empty, both falsy); warns and
returns unchanged when the server has no emission capability; otherwise
appends one `functools.partial(server.emit_signal_callback, path=path)`
callback.  The second component is the warning, if any. -/
def DBusObject.register_server (o : DBusObject) (server : ServerRef)
    (path : String) : DBusObject × Option String :=
  match o._dbus_signals with
  | none => (o, none)
  | some [] => (o, none)
  | some (_ :: _) =>
    match server.emit_signal_callback with
    | none =>
      (o, some ("Object " ++ o._dbus_name ++ " emits signals but the server "
        ++ server.className ++ " does not support this. "
        ++ "Signals will not be emitted."))
    | some cb =>
      ({ o with _emit_signal_callbacks := o._emit_signal_callbacks ++ [(cb, path)] },
        none)

/-- C8: `register_server` is a no-op without declared signals (callback list
unchanged, no warning); with signals but no server emission capability it
returns a non-fatal warning and leaves the callback list unchanged;
otherwise it appends exactly one path-bound emission callback. -/
theorem register_server_spec (o : DBusObject) (server : ServerRef)
    (path : String) :
    ((o._dbus_signals = none ∨ o._dbus_signals = some []) →
      o.register_server server path = (o, none)) ∧
    (∀ s ss, o._dbus_signals = some (s :: ss) →
      server.emit_signal_callback = none →
      o.register_server server path =
        (o, some ("Object " ++ o._dbus_name ++ " emits signals but the server "
          ++ server.className ++ " does not support this. "
          ++ "Signals will not be emitted."))) ∧
    (∀ s ss cb, o._dbus_signals = some (s :: ss) →
      server.emit_signal_callback = some cb →
      o.register_server server path =
        ({ o with _emit_signal_callbacks := o._emit_signal_callbacks ++ [(cb, path)] },
          none)) := by
  refine ⟨?_, ?_, ?_⟩
  · rintro (h | h) <;> simp [DBusObject.register_server, h]
  · intro s ss hsig hcap
    simp [DBusObject.register_server, hsig, hcap]
  · intro s ss cb hsig hcap
    simp [DBusObject.register_server, hsig, hcap]

/-- On concrete objects: no signals means no-op and no warning; signals with
a capability-less server means a warning and an unchanged callback list;
signals with a capable server appends exactly the one path-bound callback. -/
theorem register_server_spec_witness :
    (mkDBusObject "Thing" none none none).register_server ⟨some 9, "Srv"⟩ "/obj" =
      (mkDBusObject "Thing" none none none, none) ∧
    (∃ w, (mkDBusObject "Thing" none none
        (some [("changed", exampleSignal)])).register_server ⟨none, "Srv"⟩ "/obj" =
      (mkDBusObject "Thing" none none (some [("changed", exampleSignal)]), some w)) ∧
    ((mkDBusObject "Thing" none none
        (some [("changed", exampleSignal)])).register_server ⟨some 9, "Srv"⟩ "/obj").1._emit_signal_callbacks =
      [(9, "/obj")] := by
  refine ⟨?_, ?_, ?_⟩
  · exact (register_server_spec (mkDBusObject "Thing" none none none)
      ⟨some 9, "Srv"⟩ "/obj").1 (Or.inl rfl)
  · exact ⟨_, (register_server_spec
      (mkDBusObject "Thing" none none (some [("changed", exampleSignal)]))
      ⟨none, "Srv"⟩ "/obj").2.1 _ _ rfl rfl⟩
  · have h := (register_server_spec
      (mkDBusObject "Thing" none none (some [("changed", exampleSignal)]))
      ⟨some 9, "Srv"⟩ "/obj").2.2 _ _ 9 rfl rfl
    rw [h]
    rfl

/-- Python `getattr(self, attr)` for an attribute backed by a property
descriptor of the instance's type: the class lookup finds the descriptor
registered under `attr` and runs its `__get__` with the instance. -/
def pyGetattr {Inst Val : Type} (props : List (String × _DBusProperty Inst Val))
    (self : Inst) (attr : String) : Except PyErr Val :=
  match props.find? (fun p => p.1 == attr) with
  | some p => .ok (p.2._func (some self))
  | none => .error (.attributeError attr)

/-- Python `setattr(self, attr, value)` for an attribute backed by a
property descriptor: the class lookup finds the descriptor and runs its
`__set__` with the instance and value. -/
def pySetattr {Inst Val : Type} (props : List (String × _DBusProperty Inst Val))
    (self : Inst) (attr : String) (value : Val) : Inst × Option PyErr :=
  match props.find? (fun p => p.1 == attr) with
  | some p => p.2.pySet self value
  | none => (self, some (.attributeError attr))

/-- One triple yielded by `get_dbus_properties`: the getter and setter
lambdas and the descriptor.  The lambdas close over the generator's loop
variable `property_name` by reference; the shared loop-variable cell is
modelled by the extra `String` argument, which receives the cell's value at
call time. -/
structure PropTriple (Inst Val : Type) where
  getter : String → Except PyErr Val
  setterFn : String → Val → Inst × Option PyErr
  desc : _DBusProperty Inst Val

/-- The triple yielded for a descriptor: both lambdas perform a fresh
attribute lookup on `self` with the loop variable's value at call time. -/
def sharedTriple {Inst Val : Type} (props : List (String × _DBusProperty Inst Val))
    (self : Inst) (desc : _DBusProperty Inst Val) : PropTriple Inst Val :=
  { getter := fun cur => pyGetattr props self cur
    setterFn := fun cur v => pySetattr props self cur v
    desc := desc }

/-- The `DBusObject.get_dbus_properties` generator run for `k` yields,
carried out over the remaining entries: each iteration rebinds the loop
variable (returned as the final cell value), registers the descriptor's
interface on the instance (which can raise), and yields a triple whose
lambdas read the shared cell at call time. -/
def getPropsAux {Inst Val : Type} (allProps : List (String × _DBusProperty Inst Val))
    (self : Inst) (owner : OwnerRef) :
    List (String × _DBusProperty Inst Val) → Nat →
    List (PropTriple Inst Val) → Option String →
    Except PyErr (List (PropTriple Inst Val) × Option String)
  | _, 0, acc, cell => .ok (acc, cell)
  | [], _ + 1, acc, cell => .ok (acc, cell)
  | (pname, d) :: rest, k + 1, acc, _ =>
    match d.to_DBusDescriptorBase.register_interface owner with
    | .error e => .error e
    | .ok base' =>
      getPropsAux allProps self owner rest k
        (acc ++ [sharedTriple allProps self { d with to_DBusDescriptorBase := base' }])
        (some pname)

/-- Generator `get_dbus_properties` advanced through its first `k` yields: the triples
produced so far and the loop variable's current value. -/
def get_dbus_propertiesUpTo {Inst Val : Type}
    (props : List (String × _DBusProperty Inst Val)) (self : Inst)
    (owner : OwnerRef) (k : Nat) :
    Except PyErr (List (PropTriple Inst Val) × Option String) :=
  getPropsAux props self owner props k [] none

/-- Accumulator-generalized run of the property generator over resolvable
descriptors: it yields one shared-cell triple per entry and leaves the loop
variable at the last yielded name. -/
theorem getPropsAux_spec {Inst Val : Type}
    (allProps : List (String × _DBusProperty Inst Val)) (self : Inst)
    (owner : OwnerRef) :
    ∀ (rem : List (String × _DBusProperty Inst Val)) (k : Nat)
      (acc : List (PropTriple Inst Val)) (cell : Option String),
      (∀ p ∈ rem, ∃ i, p.2._interface_orig = some i ∧ i ≠ "") →
      k ≤ rem.length → 0 < k →
      ∃ (ts : List (PropTriple Inst Val)) (lastName : String),
        getPropsAux allProps self owner rem k acc cell = .ok (acc ++ ts, some lastName) ∧
        ts.length = k ∧
        (rem[k - 1]?).map Prod.fst = some lastName ∧
        ∀ t ∈ ts,
          t.getter = (fun cur => pyGetattr allProps self cur) ∧
          t.setterFn = (fun cur v => pySetattr allProps self cur v) := by
  intro rem
  induction rem with
  | nil =>
    intro k acc cell hres hk hk0
    exfalso
    simp at hk
    omega
  | cons hd rest ih =>
    intro k acc cell hres hk hk0
    obtain ⟨pname, d⟩ := hd
    obtain ⟨k', rfl⟩ : ∃ k', k = k' + 1 := ⟨k - 1, by omega⟩
    obtain ⟨i, hi, hi0⟩ := hres (pname, d) (by simp)
    have hi' : d._interface_orig = some i := hi
    have hreg : d.to_DBusDescriptorBase.register_interface owner =
        .ok d.to_DBusDescriptorBase := by
      simp [_DBusDescriptorBase.register_interface, hi', strTruthy, hi0]
    cases k' with
    | zero =>
      refine ⟨[sharedTriple allProps self d], pname, ?_, rfl, by simp, ?_⟩
      · simp [getPropsAux, hreg]
      · intro t ht
        simp at ht
        subst ht
        exact ⟨rfl, rfl⟩
    | succ k'' =>
      obtain ⟨ts', lastName, hrun, hlen, hidx, hmem⟩ :=
        ih (k'' + 1) (acc ++ [sharedTriple allProps self d]) (some pname)
          (fun p hp => hres p (List.mem_cons_of_mem _ hp))
          (by simpa using hk) (Nat.succ_pos _)
      refine ⟨sharedTriple allProps self d :: ts', lastName, ?_, by simp [hlen], ?_, ?_⟩
      · simp only [getPropsAux, hreg]
        rw [hrun]
        simp
      · simpa using hidx
      · intro t ht
        rcases List.mem_cons.mp ht with h | h
        · subst h
          exact ⟨rfl, rfl⟩
        · exact hmem t h

/-- C9: the getter and setter lambdas in the triples yielded by
`get_dbus_properties` close over the generator's loop variable by
reference: every yielded triple's accessors perform the attribute lookup
with the loop variable's value at call time, so once the generator has
advanced, an earlier triple's getter or setter reads or writes the property
named in the most recently yielded triple. -/
theorem get_dbus_properties_late_binding {Inst Val : Type}
    (props : List (String × _DBusProperty Inst Val)) (self : Inst)
    (owner : OwnerRef) (k : Nat)
    (hres : ∀ p ∈ props, ∃ i, p.2._interface_orig = some i ∧ i ≠ "")
    (hk : k ≤ props.length) (hk0 : 0 < k) :
    ∃ (ts : List (PropTriple Inst Val)) (lastName : String),
      get_dbus_propertiesUpTo props self owner k = .ok (ts, some lastName) ∧
      ts.length = k ∧
      (props[k - 1]?).map Prod.fst = some lastName ∧
      ∀ t ∈ ts,
        t.getter lastName = pyGetattr props self lastName ∧
        t.setterFn lastName = pySetattr props self lastName := by
  obtain ⟨ts, lastName, hrun, hlen, hidx, hmem⟩ :=
    getPropsAux_spec props self owner props k [] none hres hk hk0
  refine ⟨ts, lastName, by simpa [get_dbus_propertiesUpTo] using hrun, hlen, hidx, ?_⟩
  intro t ht
  obtain ⟨hg, hs⟩ := hmem t ht
  exact ⟨by rw [hg], by rw [hs]⟩

/-- A property descriptor over `Nat × Nat` instances reading the first
component, declared under attribute name `a`. -/
def propA : _DBusProperty (Nat × Nat) Nat :=
  { to_DBusDescriptorBase := mkDescriptorBase (some "com.example.I") (some "a")
    _func := fun o => (o.getD (0, 0)).1
    _return_names := []
    _multiple_returns := false
    _input_signature := ⟨[], []⟩
    _output_signature := ⟨["u"], []⟩
    _setter := none
    _descriptor_name := some "a" }

/-- A property descriptor over `Nat × Nat` instances reading the second
component, declared under attribute name `b`. -/
def propB : _DBusProperty (Nat × Nat) Nat :=
  { to_DBusDescriptorBase := mkDescriptorBase (some "com.example.I") (some "b")
    _func := fun o => (o.getD (0, 0)).2
    _return_names := []
    _multiple_returns := false
    _input_signature := ⟨[], []⟩
    _output_signature := ⟨["u"], []⟩
    _setter := none
    _descriptor_name := some "b" }

/-- The property list of a type declaring `a` then `b`. -/
def propsAB : List (String × _DBusProperty (Nat × Nat) Nat) :=
  [("a", propA), ("b", propB)]

/-- On the instance `(1, 2)` with properties `a = 1` and `b = 2`: after the
generator has yielded both triples, the loop variable holds `b`, and every
yielded getter — including the one yielded for `a` — returns `b`'s value
`2`, not `a`'s value `1`. -/
theorem get_dbus_properties_late_binding_witness :
    ∃ (ts : List (PropTriple (Nat × Nat) Nat)) (lastName : String),
      get_dbus_propertiesUpTo propsAB (1, 2) ⟨none, "Thing"⟩ 2 =
        .ok (ts, some lastName) ∧
      lastName = "b" ∧
      ts.length = 2 ∧
      pyGetattr propsAB (1, 2) "a" = .ok 1 ∧
      ∀ t ∈ ts, t.getter lastName = .ok 2 := by
  obtain ⟨ts, lastName, hrun, hlen, hidx, hmem⟩ :=
    get_dbus_properties_late_binding propsAB (1, 2) ⟨none, "Thing"⟩ 2
      (by
        intro p hp
        simp [propsAB] at hp
        rcases hp with h | h <;> subst h <;> exact ⟨"com.example.I", rfl, by decide⟩)
      (by simp [propsAB]) (by omega)
  have hln : lastName = "b" := by
    have h := hidx
    simp [propsAB] at h
    exact h.symm
  refine ⟨ts, lastName, hrun, hln, hlen, rfl, ?_⟩
  intro t ht
  have hg := (hmem t ht).1
  rw [hg, hln]
  rfl

end DBusObjects
